import Mathlib

/-!
Verification of the task-manager application in src/js/script.js and
src/js/formValidation.js: the task record, the title validation rule,
localStorage persistence (JSON serialization and parsing), the CRUD
operations, and the edit-session state carried by the form (submit-handler
swapping between addTask and updateTask).

JavaScript built-ins used by the code (String.prototype.trim,
String.prototype.length, JSON.stringify, JSON.parse, Date.now,
localStorage) are embedded as explicit Lean functions; Date.now is an
input parameter of addTask, and localStorage is an Option String field
of the application state.
-/

namespace TodoList

/-- Task record as built in addTask of script.js: id from Date.now(),
trimmed title and description, completed false at creation. -/
structure Task where
  id : Nat
  title : String
  description : String
  completed : Bool
deriving DecidableEq, Repr

/-- Whitespace recognized by JavaScript's String.prototype.trim:
the WhiteSpace and LineTerminator code points of ECMA-262. -/
def isJsWhitespace (c : Char) : Bool :=
  c.toNat = 9 || c.toNat = 10 || c.toNat = 11 || c.toNat = 12 || c.toNat = 13 ||
  c.toNat = 32 || c.toNat = 160 || c.toNat = 0x1680 ||
  (0x2000 ≤ c.toNat && c.toNat ≤ 0x200a) ||
  c.toNat = 0x2028 || c.toNat = 0x2029 || c.toNat = 0x202f || c.toNat = 0x205f ||
  c.toNat = 0x3000 || c.toNat = 0xfeff

/-- JavaScript String.prototype.trim: remove leading and trailing whitespace. -/
def jsTrim (s : String) : String :=
  String.mk (((s.data.dropWhile isJsWhitespace).reverse.dropWhile isJsWhitespace).reverse)

/-- JavaScript String.prototype.length: the number of UTF-16 code units
(code points above U+FFFF count as a surrogate pair). -/
def utf16Length (s : String) : Nat :=
  s.data.foldl (fun n c => n + (if c.toNat < 0x10000 then 1 else 2)) 0

/-- Pure verdict of validateTitle (script.js lines 339-357, identical in
formValidation.js lines 34-52): the title is trimmed and valid iff its
length is between 5 and 50. -/
def validateTitle (rawTitle : String) : Bool :=
  let title := jsTrim rawTitle
  decide (5 ≤ utf16Length title) && decide (utf16Length title ≤ 50)

/-! JSON serialization, embedding JSON.stringify as called by saveTasks.
JSON.stringify escapes the double quote, the backslash, and the control
characters below U+0020, and separates array elements and object fields
with commas and no whitespace. -/

/-- Lowercase hexadecimal digit, as used by JSON.stringify's \u escapes. -/
def hexDigitChar (n : Nat) : Char :=
  if n < 10 then Char.ofNat (48 + n) else Char.ofNat (87 + n)

/-- Escape of one character inside a JSON string literal, following
JSON.stringify. -/
def escapeChar (c : Char) : List Char :=
  if c = '"' then ['\\', '"']
  else if c = '\\' then ['\\', '\\']
  else if c = '\x08' then ['\\', 'b']
  else if c = '\x09' then ['\\', 't']
  else if c = '\x0a' then ['\\', 'n']
  else if c = '\x0c' then ['\\', 'f']
  else if c = '\x0d' then ['\\', 'r']
  else if c.toNat < 32 then
    ['\\', 'u', '0', '0', hexDigitChar (c.toNat / 16), hexDigitChar (c.toNat % 16)]
  else [c]

/-- JSON string literal for s: opening quote, escaped characters, closing
quote. -/
def renderStringChars (s : String) : List Char :=
  '"' :: (s.data.flatMap escapeChar ++ ['"'])

/-- Big-endian decimal digits of n, with enough fuel; empty on n = 0. -/
def natDigitsAux : Nat → Nat → List Char
  | 0, _ => []
  | fuel + 1, n => if n = 0 then [] else natDigitsAux fuel (n / 10) ++ [Char.ofNat (48 + n % 10)]

/-- Decimal rendering of a natural number, as JSON.stringify prints the
integral ids. -/
def renderNatChars (n : Nat) : List Char :=
  if n = 0 then ['0'] else natDigitsAux (n + 1) n

/-- JSON rendering of a boolean. -/
def renderBoolChars (b : Bool) : List Char :=
  if b then "true".data else "false".data

/-- JSON object for one task, fields in insertion order id, title,
description, completed, exactly as JSON.stringify lays out the object
literal built in addTask. -/
def renderTaskChars (t : Task) : List Char :=
  "\x7b\"id\":".data ++ renderNatChars t.id ++
  ",\"title\":".data ++ renderStringChars t.title ++
  ",\"description\":".data ++ renderStringChars t.description ++
  ",\"completed\":".data ++ renderBoolChars t.completed ++
  "\x7d".data

/-- Comma-prefixed renderings of the tasks after the first. -/
def renderTasksTailChars : List Task → List Char
  | [] => []
  | t :: ts => ',' :: (renderTaskChars t ++ renderTasksTailChars ts)

/-- Renderings of all tasks, separated by commas. -/
def renderTasksChars : List Task → List Char
  | [] => []
  | t :: ts => renderTaskChars t ++ renderTasksTailChars ts

/-- JSON.stringify(tasks): the array of task objects. -/
def stringifyTasks (ts : List Task) : String :=
  String.mk ('[' :: (renderTasksChars ts ++ [']']))

/-! JSON parsing, embedding JSON.parse as called by loadTasks. loadTasks
assigns the parsed value to the task array without any shape validation,
so the parser is the restriction of JSON.parse to the serialized shape of
a task array (the spec declares any other stored shape undefined
behavior); a string outside this grammar parses to none, where JSON.parse
throws a SyntaxError. -/

/-- Value of a hexadecimal digit. -/
def hexVal (c : Char) : Option Nat :=
  if '0' ≤ c ∧ c ≤ '9' then some (c.toNat - 48)
  else if 'a' ≤ c ∧ c ≤ 'f' then some (c.toNat - 87)
  else if 'A' ≤ c ∧ c ≤ 'F' then some (c.toNat - 55)
  else none

/-- Single-character JSON escapes. -/
def unescapeChar (c : Char) : Option Char :=
  if c = '"' then some '"'
  else if c = '\\' then some '\\'
  else if c = '/' then some '/'
  else if c = 'b' then some '\x08'
  else if c = 't' then some '\x09'
  else if c = 'n' then some '\x0a'
  else if c = 'f' then some '\x0c'
  else if c = 'r' then some '\x0d'
  else none

/-- Body of a JSON string literal after the opening quote: characters up
to the closing quote, with escapes decoded. The fuel (one unit per decoded
character) keeps the recursion structural; the input's length is always
enough, since every decoded character consumes at least one input
character. -/
def parseStrBody (fuel : Nat) (l : List Char) : Option (List Char × List Char) :=
  match l with
  | [] => none
  | c :: rest =>
    if c = '"' then some ([], rest)
    else
      match fuel with
      | 0 => none
      | fuel' + 1 =>
        if c = '\\' then
          match rest with
          | [] => none
          | e :: rest1 =>
            if e = 'u' then
              match rest1 with
              | h1 :: h2 :: h3 :: h4 :: rest2 =>
                match hexVal h1, hexVal h2, hexVal h3, hexVal h4 with
                | some a, some b, some c2, some d =>
                  match parseStrBody fuel' rest2 with
                  | some (cs, r) =>
                    some (Char.ofNat (((a * 16 + b) * 16 + c2) * 16 + d) :: cs, r)
                  | none => none
                | _, _, _, _ => none
              | _ => none
            else
              match unescapeChar e with
              | some c2 =>
                match parseStrBody fuel' rest1 with
                | some (cs, r) => some (c2 :: cs, r)
                | none => none
              | none => none
        else
          match parseStrBody fuel' rest with
          | some (cs, r) => some (c :: cs, r)
          | none => none

/-- JSON string literal: an opening quote followed by a body. -/
def parseJsonString (l : List Char) : Option (String × List Char) :=
  match l with
  | [] => none
  | c :: rest =>
    if c = '"' then
      match parseStrBody rest.length rest with
      | some (cs, r) => some (String.mk cs, r)
      | none => none
    else none

/-- Exact literal prefix, yielding the remainder. -/
def parseLit : List Char → List Char → Option (List Char)
  | [], l => some l
  | _ :: _, [] => none
  | c :: cs, d :: ds => if c = d then parseLit cs ds else none

/-- Decimal digit test. -/
def isDigitChar (c : Char) : Bool :=
  decide ('0' ≤ c) && decide (c ≤ '9')

/-- Greedy decimal scan, big-endian accumulator. -/
def parseNatAux (acc : Nat) : List Char → Nat × List Char
  | [] => (acc, [])
  | c :: rest =>
    if isDigitChar c then parseNatAux (10 * acc + (c.toNat - 48)) rest
    else (acc, c :: rest)

/-- JSON number (restricted to the unsigned integers the program stores):
at least one digit, consumed greedily. -/
def parseNatChars : List Char → Option (Nat × List Char)
  | [] => none
  | c :: rest =>
    if isDigitChar c then some (parseNatAux (c.toNat - 48) rest)
    else none

/-- JSON boolean literal. -/
def parseBoolChars (l : List Char) : Option (Bool × List Char) :=
  match parseLit "true".data l with
  | some rest => some (true, rest)
  | none =>
    match parseLit "false".data l with
    | some rest => some (false, rest)
    | none => none

/-- One task object in serialized shape. -/
def parseTaskChars (l : List Char) : Option (Task × List Char) :=
  match parseLit "\x7b\"id\":".data l with
  | none => none
  | some l1 =>
    match parseNatChars l1 with
    | none => none
    | some (i, l2) =>
      match parseLit ",\"title\":".data l2 with
      | none => none
      | some l3 =>
        match parseJsonString l3 with
        | none => none
        | some (title, l4) =>
          match parseLit ",\"description\":".data l4 with
          | none => none
          | some (l5) =>
            match parseJsonString l5 with
            | none => none
            | some (description, l6) =>
              match parseLit ",\"completed\":".data l6 with
              | none => none
              | some l7 =>
                match parseBoolChars l7 with
                | none => none
                | some (completed, l8) =>
                  match parseLit "\x7d".data l8 with
                  | none => none
                  | some l9 =>
                    some ({ id := i, title := title, description := description,
                            completed := completed }, l9)

/-- Tasks after the first: either the closing bracket or a comma and a
further task. The fuel bounds the number of elements. -/
def parseTasksTailAux : Nat → List Char → Option (List Task × List Char)
  | _, [] => none
  | fuel, c :: l1 =>
    if c = ']' then some ([], l1)
    else if c = ',' then
      match fuel with
      | 0 => none
      | fuel' + 1 =>
        match parseTaskChars l1 with
        | some (t, r) =>
          match parseTasksTailAux fuel' r with
          | some (ts, r2) => some (t :: ts, r2)
          | none => none
        | none => none
    else none

/-- A serialized task array: brackets around zero or more task objects. -/
def parseTasksChars (fuel : Nat) (l : List Char) : Option (List Task × List Char) :=
  match l with
  | [] => none
  | c :: l1 =>
    if c = '[' then
      match l1 with
      | [] => none
      | c2 :: _ =>
        if c2 = ']' then some ([], l1.tail)
        else
          match parseTaskChars l1 with
          | some (t, r) =>
            match parseTasksTailAux fuel r with
            | some (ts, r2) => some (t :: ts, r2)
            | none => none
          | none => none
    else none

/-- JSON.parse restricted to the stored task-array shape: the whole string
must be consumed. -/
def parseTasks (s : String) : Option (List Task) :=
  match parseTasksChars s.data.length s.data with
  | some (ts, []) => some ts
  | _ => none

/-! Application state and operations. The DOM pieces the code reads and
writes are explicit fields: the two form inputs, the submit button's
label, disabled flag and data-editing-id attribute, the error label's
visibility, the dirty flag, and which submit handler is currently
attached to the form (script.js swaps between addTask and updateTask with
removeEventListener/addEventListener, so exactly one is attached). -/

/-- The submit handler currently attached to the task form. -/
inductive SubmitHandler where
  | add : SubmitHandler
  | update : SubmitHandler
deriving DecidableEq, Repr

/-- State owned by script.js: the tasks array, the persisted string under
localStorage key "tasks", and the form/DOM state the code manipulates. -/
structure AppState where
  tasks : List Task
  storage : Option String
  formTitle : String
  formDescription : String
  buttonLabel : String
  buttonDisabled : Bool
  editingId : Option Nat
  isTitleInputDirty : Bool
  errorVisible : Bool
  handler : SubmitHandler
deriving DecidableEq, Repr

/-- saveTasks: localStorage.setItem('tasks', JSON.stringify(tasks)). -/
def saveTasks (s : AppState) : AppState :=
  { s with storage := some (stringifyTasks s.tasks) }

/-- loadTasks: read localStorage.getItem('tasks') into the tasks array.
The stored value is truthy only when present and non-empty; JSON.parse
throws on a string outside the parsed grammar, modeled as the error
outcome. tasks0 is the prior value of the tasks array ([] at startup). -/
def loadTasks (stored : Option String) (tasks0 : List Task) :
    Except Unit (List Task) :=
  match stored with
  | none => Except.ok tasks0
  | some str =>
    if str = "" then Except.ok tasks0
    else
      match parseTasks str with
      | some ts => Except.ok ts
      | none => Except.error ()

/-- validateTitle's effect on the page: show the error label only when the
input is dirty and the title invalid, and enable the button exactly when
the title is valid. Returns the verdict. -/
def runValidateTitle (s : AppState) : AppState × Bool :=
  let isValid := validateTitle s.formTitle
  ({ s with
      errorVisible := if s.isTitleInputDirty then !isValid else false,
      buttonDisabled := !isValid },
   isValid)

/-- addTask (script.js lines 421-449): mark the form dirty, validate, and
on success push a task with id Date.now() (the now parameter), trimmed
title and description and completed false, persist, reset the form, and
re-validate the now-empty title. -/
def addTask (now : Nat) (s : AppState) : AppState :=
  let s1 := { s with isTitleInputDirty := true }
  match runValidateTitle s1 with
  | (s2, false) => s2
  | (s2, true) =>
    let title := jsTrim s2.formTitle
    let description := jsTrim s2.formDescription
    let newTask : Task :=
      { id := now, title := title, description := description, completed := false }
    let s3 := saveTasks { s2 with tasks := s2.tasks ++ [newTask] }
    let s4 := { s3 with
        formTitle := "", formDescription := "",
        buttonDisabled := true, isTitleInputDirty := false }
    (runValidateTitle s4).1

/-- editTask (script.js lines 459-475): find the task; when present,
prefill the form, relabel the button, record the editing id, mark dirty,
re-validate, and swap the submit handler to updateTask. When absent the
whole body is skipped. -/
def editTask (id : Nat) (s : AppState) : AppState :=
  match s.tasks.find? (fun t => t.id == id) with
  | none => s
  | some taskToEdit =>
    let s1 := { s with
        formTitle := taskToEdit.title,
        formDescription := taskToEdit.description,
        buttonLabel := "Actualizar Tarea",
        editingId := some id,
        isTitleInputDirty := true }
    let s2 := (runValidateTitle s1).1
    { s2 with handler := SubmitHandler.update }

/-- Replacement of the first task carrying the given id by the same task
with new title and description, embedding findIndex followed by the two
in-place field assignments of updateTask. -/
def setTitleDescFirst (id : Nat) (title description : String) :
    List Task → List Task
  | [] => []
  | t :: ts =>
    if t.id == id then
      { t with title := title, description := description } :: ts
    else t :: setTitleDescFirst id title description ts

/-- updateTask (script.js lines 486-517): mark dirty, validate, look up
the editing id; when a task with that id exists, overwrite its title and
description with the trimmed form values, persist, restore the form and
button, and swap the submit handler back to addTask. When no task matches
(findIndex -1) everything after the guard is skipped. When the editing id
attribute is absent, parseInt yields NaN and findIndex is likewise -1. -/
def updateTask (s : AppState) : AppState :=
  let s1 := { s with isTitleInputDirty := true }
  match runValidateTitle s1 with
  | (s2, false) => s2
  | (s2, true) =>
    match s2.editingId with
    | none => s2
    | some editingId =>
      if s2.tasks.any (fun t => t.id == editingId) then
        let s3 := saveTasks { s2 with
            tasks := setTitleDescFirst editingId
              (jsTrim s2.formTitle) (jsTrim s2.formDescription) s2.tasks }
        let s4 := { s3 with
            formTitle := "", formDescription := "",
            buttonLabel := "Agregar Tarea", editingId := none,
            buttonDisabled := true, isTitleInputDirty := false }
        let s5 := (runValidateTitle s4).1
        { s5 with handler := SubmitHandler.add }
      else s2

/-- deleteTask (script.js lines 525-530): filter out every task with the
id and persist. -/
def deleteTask (id : Nat) (s : AppState) : AppState :=
  saveTasks { s with tasks := s.tasks.filter (fun t => !(t.id == id)) }

/-- Flip of the completed flag on the first task carrying the id. -/
def toggleFirst (id : Nat) : List Task → List Task
  | [] => []
  | t :: ts =>
    if t.id == id then { t with completed := !t.completed } :: ts
    else t :: toggleFirst id ts

/-- toggleCompleteTask (script.js lines 539-546): when a task with the id
exists, flip its completed flag and persist; otherwise nothing happens. -/
def toggleCompleteTask (id : Nat) (s : AppState) : AppState :=
  if s.tasks.any (fun t => t.id == id) then
    saveTasks { s with tasks := toggleFirst id s.tasks }
  else s

/-- Input listener on the title field (script.js lines 551-562): store the
new value, mark dirty when the trimmed value is non-empty (when it is
empty and the field is not dirty the error label is hidden), then
re-validate. -/
def inputTitle (v : String) (s : AppState) : AppState :=
  let s1 := { s with formTitle := v }
  let s2 :=
    if 0 < utf16Length (jsTrim v) then { s1 with isTitleInputDirty := true }
    else if !s1.isTitleInputDirty then { s1 with errorVisible := false }
    else s1
  (runValidateTitle s2).1

/-- The description textarea has no listener; typing only changes its
value. -/
def inputDescription (v : String) (s : AppState) : AppState :=
  { s with formDescription := v }

/-- Blur listener on the title field: mark dirty and re-validate. -/
def blurTitle (s : AppState) : AppState :=
  (runValidateTitle { s with isTitleInputDirty := true }).1

/-- Focus listener on the title field: hide the error label when the field
is clean and empty. -/
def focusTitle (s : AppState) : AppState :=
  if !s.isTitleInputDirty && jsTrim s.formTitle == "" then
    { s with errorVisible := false }
  else s

/-- Form submission: the handler currently attached decides between
addTask and updateTask. -/
def submitForm (now : Nat) (s : AppState) : AppState :=
  match s.handler with
  | SubmitHandler.add => addTask now s
  | SubmitHandler.update => updateTask s

/-- Delete button: deleteTask runs only when the confirm dialog was
accepted. -/
def clickDelete (id : Nat) (confirmed : Bool) (s : AppState) : AppState :=
  if confirmed then deleteTask id s else s

/-- One user action on the page. -/
inductive Op where
  | inputTitle (v : String)
  | inputDescription (v : String)
  | blurTitle
  | focusTitle
  | submit (now : Nat)
  | clickEdit (id : Nat)
  | clickDelete (id : Nat) (confirmed : Bool)
  | clickToggle (id : Nat)

/-- Effect of one user action. -/
def applyOp (o : Op) (s : AppState) : AppState :=
  match o with
  | Op.inputTitle v => inputTitle v s
  | Op.inputDescription v => inputDescription v s
  | Op.blurTitle => blurTitle s
  | Op.focusTitle => focusTitle s
  | Op.submit now => submitForm now s
  | Op.clickEdit id => editTask id s
  | Op.clickDelete id confirmed => clickDelete id confirmed s
  | Op.clickToggle id => toggleCompleteTask id s

/-- Effect of a sequence of user actions, oldest first. -/
def applyOps (ops : List Op) (s : AppState) : AppState :=
  ops.foldl (fun s o => applyOp o s) s

/-- The persisted string is exactly the serialization of the current task
array; every mutating operation re-establishes this by calling saveTasks. -/
def StorageSync (s : AppState) : Prop :=
  s.storage = some (stringifyTasks s.tasks)

instance (s : AppState) : Decidable (StorageSync s) := by
  unfold StorageSync; infer_instance


/-- Sample tasks for concrete instantiations. -/
def taskA : Task :=
  { id := 1, title := "alpha task", description := "first", completed := false }

/-- Second sample task. -/
def taskB : Task :=
  { id := 2, title := "beta task", description := "second", completed := true }

/-- Third sample task. -/
def taskC : Task :=
  { id := 3, title := "gamma task", description := "third", completed := false }

/-- The application state right after startup on an empty store: no tasks,
serialized empty array persisted, empty form, add-mode submit handler. -/
def baseState : AppState :=
  { tasks := [], storage := some "[]", formTitle := "", formDescription := "",
    buttonLabel := "Agregar Tarea", buttonDisabled := true, editingId := none,
    isTitleInputDirty := false, errorVisible := false,
    handler := SubmitHandler.add }


/-- Editing state whose target id 1 matches no task: empty store, valid
title in the form, update handler attached. -/
def editingEmptyState : AppState :=
  { baseState with formTitle := "hello", buttonLabel := "Actualizar Tarea",
                   buttonDisabled := false, editingId := some 1,
                   isTitleInputDirty := true, handler := SubmitHandler.update }

/-- Idle state over two tasks. -/
def twoTaskState : AppState :=
  { baseState with tasks := [taskA, taskB] }

/-- Idle state over three tasks. -/
def threeTaskState : AppState :=
  { baseState with tasks := [taskA, taskB, taskC] }

/-! Round trip of the persistence layer: the parser inverts the
serializer on any input list of tasks, with any trailing input intact. -/

theorem parseLit_self (lit l : List Char) : parseLit lit (lit ++ l) = some l := by
  induction lit with
  | nil => rfl
  | cons c cs ih => simp [parseLit, ih]

theorem one_le_length_escapeChar (c : Char) : 1 ≤ (escapeChar c).length := by
  unfold escapeChar
  split_ifs <;> simp

theorem length_le_length_flatMap_escapeChar (l : List Char) :
    l.length ≤ (l.flatMap escapeChar).length := by
  induction l with
  | nil => simp
  | cons c cs ih =>
    have h := one_le_length_escapeChar c
    simp only [List.flatMap_cons, List.length_append, List.length_cons]
    omega

theorem hexVal_hexDigitChar (n : Nat) (h : n < 16) :
    hexVal (hexDigitChar n) = some n := by
  interval_cases n <;> decide

theorem parseStrBody_flatMap (l : List Char) (fuel : Nat) (rest : List Char)
    (hfuel : l.length ≤ fuel) :
    parseStrBody fuel (l.flatMap escapeChar ++ '"' :: rest) = some (l, rest) := by
  induction l generalizing fuel with
  | nil => simp [parseStrBody.eq_def]
  | cons c cs ih =>
    simp only [List.length_cons] at hfuel
    obtain ⟨fuel', rfl⟩ : ∃ f, fuel = f + 1 := ⟨fuel - 1, by omega⟩
    have hcs : cs.length ≤ fuel' := by omega
    rw [List.flatMap_cons, List.append_assoc]
    by_cases h1 : c = '"'
    · subst h1
      rw [parseStrBody.eq_def]
      simp [escapeChar, unescapeChar, ih fuel' hcs]
    by_cases h2 : c = '\\'
    · subst h2
      rw [parseStrBody.eq_def]
      simp [escapeChar, unescapeChar, ih fuel' hcs]
    by_cases h3 : c = '\x08'
    · subst h3
      rw [parseStrBody.eq_def]
      simp [escapeChar, unescapeChar, ih fuel' hcs]
    by_cases h4 : c = '\x09'
    · subst h4
      rw [parseStrBody.eq_def]
      simp [escapeChar, unescapeChar, ih fuel' hcs]
    by_cases h5 : c = '\x0a'
    · subst h5
      rw [parseStrBody.eq_def]
      simp [escapeChar, unescapeChar, ih fuel' hcs]
    by_cases h6 : c = '\x0c'
    · subst h6
      rw [parseStrBody.eq_def]
      simp [escapeChar, unescapeChar, ih fuel' hcs]
    by_cases h7 : c = '\x0d'
    · subst h7
      rw [parseStrBody.eq_def]
      simp [escapeChar, unescapeChar, ih fuel' hcs]
    by_cases h8 : c.toNat < 32
    · have e1 : hexVal (hexDigitChar (c.toNat / 16)) = some (c.toNat / 16) :=
        hexVal_hexDigitChar _ (by omega)
      have e2 : hexVal (hexDigitChar (c.toNat % 16)) = some (c.toNat % 16) :=
        hexVal_hexDigitChar _ (by omega)
      have ecode : c.toNat / 16 * 16 + c.toNat % 16 = c.toNat := by
        omega
      have e0 : hexVal '0' = some 0 := by decide
      rw [parseStrBody.eq_def]
      simp [escapeChar, h1, h2, h3, h4, h5, h6, h7, h8,
        e0, e1, e2, ecode, Char.ofNat_toNat, ih fuel' hcs]
    · rw [parseStrBody.eq_def]
      simp [escapeChar, h1, h2, h3, h4, h5, h6, h7, h8, ih fuel' hcs]

theorem parseStrBody_flatMap_self (l rest : List Char) :
    parseStrBody (l.flatMap escapeChar ++ '"' :: rest).length
      (l.flatMap escapeChar ++ '"' :: rest) = some (l, rest) := by
  apply parseStrBody_flatMap
  have h := length_le_length_flatMap_escapeChar l
  simp only [List.length_append, List.length_cons]
  omega

theorem parseJsonString_render (s : String) (rest : List Char) :
    parseJsonString (renderStringChars s ++ rest) = some (s, rest) := by
  have hshape : renderStringChars s ++ rest
      = '"' :: (s.data.flatMap escapeChar ++ '"' :: rest) := by
    simp [renderStringChars]
  rw [hshape]
  show (match parseStrBody (s.data.flatMap escapeChar ++ '"' :: rest).length
          (s.data.flatMap escapeChar ++ '"' :: rest) with
        | some (cs, r) => some (String.mk cs, r)
        | none => none) = some (s, rest)
  rw [parseStrBody_flatMap_self]

theorem digitChar_spec (d : Nat) (h : d < 10) :
    isDigitChar (Char.ofNat (48 + d)) = true ∧ (Char.ofNat (48 + d)).toNat = 48 + d := by
  interval_cases d <;> exact ⟨by decide, by decide⟩

theorem natDigitsAux_eq (n : Nat) : ∀ fuel, n ≤ fuel →
    natDigitsAux fuel n = (Nat.digits 10 n).reverse.map (fun d => Char.ofNat (48 + d)) := by
  induction n using Nat.strong_induction_on with
  | _ n ih =>
    intro fuel hfuel
    match fuel with
    | 0 =>
      have hn : n = 0 := by omega
      subst hn
      simp [natDigitsAux]
    | fuel + 1 =>
      by_cases h0 : n = 0
      · subst h0
        simp [natDigitsAux]
      · have hdig : Nat.digits 10 n = n % 10 :: Nat.digits 10 (n / 10) :=
          Nat.digits_def' (by norm_num) (Nat.pos_of_ne_zero h0)
        have hlt : n / 10 < n := Nat.div_lt_self (Nat.pos_of_ne_zero h0) (by norm_num)
        rw [natDigitsAux, if_neg h0, ih (n / 10) hlt fuel (by omega), hdig]
        simp

theorem parseNatAux_digits (ds : List Nat) (hds : ∀ d ∈ ds, d < 10) (acc : Nat)
    (rest : List Char) (hrest : ∀ c l', rest = c :: l' → isDigitChar c = false) :
    parseNatAux acc ((ds.map (fun d => Char.ofNat (48 + d))) ++ rest)
      = (ds.foldl (fun a d => 10 * a + d) acc, rest) := by
  induction ds generalizing acc with
  | nil =>
    cases rest with
    | nil => rfl
    | cons c r => simp [parseNatAux, hrest c r rfl]
  | cons d ds ih =>
    have h1 := digitChar_spec d (hds d (by simp))
    simp only [List.map_cons, List.cons_append, parseNatAux, h1.1, h1.2, if_true,
      List.append_eq, Nat.add_sub_cancel_left]
    rw [ih (fun d hd => hds d (by simp [hd]))]
    simp

theorem foldr_horner (l : List Nat) :
    l.foldr (fun d a => 10 * a + d) 0 = Nat.ofDigits 10 l := by
  induction l with
  | nil => simp [Nat.ofDigits]
  | cons d l ih => simp [Nat.ofDigits, ih]; omega

theorem parseNatChars_render (n : Nat) (rest : List Char)
    (hrest : ∀ c l', rest = c :: l' → isDigitChar c = false) :
    parseNatChars (renderNatChars n ++ rest) = some (n, rest) := by
  by_cases h0 : n = 0
  · subst h0
    have hz : isDigitChar '0' = true := by decide
    cases rest with
    | nil => simp [renderNatChars, parseNatChars, parseNatAux, hz]
    | cons c r =>
      simp [renderNatChars, parseNatChars, parseNatAux, hz, hrest c r rfl]
  · have hbs : renderNatChars n
        = (Nat.digits 10 n).reverse.map (fun d => Char.ofNat (48 + d)) := by
      rw [renderNatChars, if_neg h0]
      exact natDigitsAux_eq n (n + 1) (by omega)
    have hne : Nat.digits 10 n ≠ [] := Nat.digits_ne_nil_iff_ne_zero.mpr h0
    obtain ⟨b, bs', hb⟩ : ∃ b bs', (Nat.digits 10 n).reverse = b :: bs' := by
      cases hrev : (Nat.digits 10 n).reverse with
      | nil =>
        exact absurd (by simpa using congrArg List.reverse hrev) hne
      | cons b bs' => exact ⟨b, bs', rfl⟩
    have hmem : ∀ d ∈ (Nat.digits 10 n).reverse, d < 10 := by
      intro d hd
      exact Nat.digits_lt_base (by norm_num) (List.mem_reverse.mp hd)
    have hblt : b < 10 := hmem b (by rw [hb]; simp)
    have hbchar := digitChar_spec b hblt
    rw [hbs, hb]
    simp only [List.map_cons, List.cons_append, parseNatChars, hbchar.1, if_true,
      hbchar.2]
    rw [Nat.add_sub_cancel_left,
      parseNatAux_digits bs' (fun d hd => hmem d (by rw [hb]; simp [hd])) b rest hrest]
    have hfold : bs'.foldl (fun a d => 10 * a + d) b
        = (Nat.digits 10 n).reverse.foldl (fun a d => 10 * a + d) 0 := by
      rw [hb]
      simp
    rw [hfold, List.foldl_reverse]
    have : (Nat.digits 10 n).foldr (fun x y => 10 * y + x) 0 = n := by
      have h1 := foldr_horner (Nat.digits 10 n)
      have h2 := Nat.ofDigits_digits 10 n
      omega
    rw [this]

theorem parseBoolChars_render (b : Bool) (rest : List Char) :
    parseBoolChars (renderBoolChars b ++ rest) = some (b, rest) := by
  cases b <;> rfl

theorem parseTaskChars_render (t : Task) (rest : List Char) :
    parseTaskChars (renderTaskChars t ++ rest) = some (t, rest) := by
  have hnat : ∀ Y : List Char,
      parseNatChars (renderNatChars t.id ++ (",\"title\":".data ++ Y))
        = some (t.id, ",\"title\":".data ++ Y) := by
    intro Y
    apply parseNatChars_render
    intro c l' h
    rw [show ((",\"title\":".data : List Char) ++ Y)
        = ',' :: ("\"title\":".data ++ Y) from rfl] at h
    cases h
    decide
  simp only [renderTaskChars, List.append_assoc, parseTaskChars, parseLit_self,
    hnat, parseJsonString_render, parseBoolChars_render]

theorem parseTasksTailAux_render (ts : List Task) : ∀ (fuel : Nat) (rest : List Char),
    ts.length ≤ fuel →
    parseTasksTailAux fuel (renderTasksTailChars ts ++ (']' :: rest)) = some (ts, rest) := by
  induction ts with
  | nil =>
    intro fuel rest _
    cases fuel <;> rfl
  | cons t ts ih =>
    intro fuel rest h
    simp only [List.length_cons] at h
    obtain ⟨fuel', rfl⟩ : ∃ f, fuel = f + 1 := ⟨fuel - 1, by omega⟩
    simp only [renderTasksTailChars, List.cons_append, List.append_assoc]
    rw [parseTasksTailAux.eq_def]
    simp [parseTaskChars_render, ih fuel' rest (by omega)]

theorem length_renderTasksTail_ge (ts : List Task) :
    ts.length ≤ (renderTasksTailChars ts).length := by
  induction ts with
  | nil => simp [renderTasksTailChars]
  | cons t ts ih =>
    simp only [renderTasksTailChars, List.length_cons, List.length_append]
    omega

theorem parseTasks_stringify (ts : List Task) :
    parseTasks (stringifyTasks ts) = some ts := by
  cases ts with
  | nil => rfl
  | cons t ts' =>
    have hdata : (stringifyTasks (t :: ts')).data
        = '[' :: (renderTaskChars t ++ (renderTasksTailChars ts' ++ (']' :: []))) := by
      simp [stringifyTasks, renderTasksChars]
    have hN : ts'.length ≤
        ('[' :: (renderTaskChars t
          ++ (renderTasksTailChars ts' ++ (']' :: ([] : List Char))))).length := by
      have h := length_renderTasksTail_ge ts'
      simp only [List.length_cons, List.length_append]
      omega
    have hmain : parseTasksChars
        ('[' :: (renderTaskChars t ++ (renderTasksTailChars ts' ++ (']' :: [])))).length
        ('[' :: (renderTaskChars t ++ (renderTasksTailChars ts' ++ (']' :: []))))
        = some (t :: ts', []) := by
      show (match parseTaskChars (renderTaskChars t
              ++ (renderTasksTailChars ts' ++ (']' :: []))) with
        | some (t1, r) =>
          match parseTasksTailAux
              ('[' :: (renderTaskChars t
                ++ (renderTasksTailChars ts' ++ (']' :: [])))).length r with
          | some (ts2, r2) => some (t1 :: ts2, r2)
          | none => none
        | none => none) = some (t :: ts', [])
      rw [parseTaskChars_render]
      simp only [parseTasksTailAux_render ts' _ [] hN]
    simp only [List.length_cons, List.length_append, List.length_nil] at hmain
    simp [parseTasks, hdata, hmain]

/-! Closed-form equations for each operation, one per control path. -/

theorem validateTitle_empty : validateTitle "" = false := by decide

theorem addTask_invalid (now : Nat) (s : AppState)
    (h : validateTitle s.formTitle = false) :
    addTask now s = { s with
      isTitleInputDirty := true, errorVisible := true, buttonDisabled := true } := by
  simp [addTask, runValidateTitle, h]

theorem addTask_valid (now : Nat) (s : AppState)
    (h : validateTitle s.formTitle = true) :
    addTask now s = { s with
      tasks := s.tasks
        ++ [{ id := now, title := jsTrim s.formTitle,
              description := jsTrim s.formDescription, completed := false }],
      storage := some (stringifyTasks (s.tasks
        ++ [{ id := now, title := jsTrim s.formTitle,
              description := jsTrim s.formDescription, completed := false }])),
      formTitle := "", formDescription := "",
      buttonDisabled := true, isTitleInputDirty := false, errorVisible := false } := by
  simp [addTask, runValidateTitle, saveTasks, h, validateTitle_empty]

theorem updateTask_invalid (s : AppState)
    (h : validateTitle s.formTitle = false) :
    updateTask s = { s with
      isTitleInputDirty := true, errorVisible := true, buttonDisabled := true } := by
  simp [updateTask, runValidateTitle, h]

theorem updateTask_noId (s : AppState)
    (hv : validateTitle s.formTitle = true) (hid : s.editingId = none) :
    updateTask s = { s with
      isTitleInputDirty := true, errorVisible := false, buttonDisabled := false } := by
  simp [updateTask, runValidateTitle, hv, hid]

theorem updateTask_missing (s : AppState) (i : Nat)
    (hv : validateTitle s.formTitle = true) (hid : s.editingId = some i)
    (habs : s.tasks.any (fun t => t.id == i) = false) :
    updateTask s = { s with
      isTitleInputDirty := true, errorVisible := false, buttonDisabled := false } := by
  simp [updateTask, runValidateTitle, hv, hid, habs]

theorem updateTask_found (s : AppState) (i : Nat)
    (hv : validateTitle s.formTitle = true) (hid : s.editingId = some i)
    (hfound : s.tasks.any (fun t => t.id == i) = true) :
    updateTask s = { s with
      tasks := setTitleDescFirst i (jsTrim s.formTitle) (jsTrim s.formDescription) s.tasks,
      storage := some (stringifyTasks
        (setTitleDescFirst i (jsTrim s.formTitle) (jsTrim s.formDescription) s.tasks)),
      formTitle := "", formDescription := "",
      buttonLabel := "Agregar Tarea", editingId := none,
      buttonDisabled := true, isTitleInputDirty := false, errorVisible := false,
      handler := SubmitHandler.add } := by
  simp [updateTask, runValidateTitle, saveTasks, hv, hid, hfound, validateTitle_empty]

theorem editTask_absent (i : Nat) (s : AppState)
    (h : s.tasks.find? (fun t => t.id == i) = none) :
    editTask i s = s := by
  simp [editTask, h]

theorem editTask_present (i : Nat) (s : AppState) (u : Task)
    (h : s.tasks.find? (fun t => t.id == i) = some u) :
    editTask i s = { s with
      formTitle := u.title, formDescription := u.description,
      buttonLabel := "Actualizar Tarea", editingId := some i,
      isTitleInputDirty := true,
      errorVisible := !(validateTitle u.title),
      buttonDisabled := !(validateTitle u.title),
      handler := SubmitHandler.update } := by
  simp [editTask, runValidateTitle, h]

theorem deleteTask_eq (i : Nat) (s : AppState) :
    deleteTask i s = { s with
      tasks := s.tasks.filter (fun t => !(t.id == i)),
      storage := some (stringifyTasks (s.tasks.filter (fun t => !(t.id == i)))) } := by
  simp [deleteTask, saveTasks]

theorem toggleCompleteTask_found (i : Nat) (s : AppState)
    (h : s.tasks.any (fun t => t.id == i) = true) :
    toggleCompleteTask i s = { s with
      tasks := toggleFirst i s.tasks,
      storage := some (stringifyTasks (toggleFirst i s.tasks)) } := by
  simp [toggleCompleteTask, saveTasks, h]

theorem toggleCompleteTask_missing (i : Nat) (s : AppState)
    (h : s.tasks.any (fun t => t.id == i) = false) :
    toggleCompleteTask i s = s := by
  simp [toggleCompleteTask, h]

theorem inputTitle_frame (v : String) (s : AppState) :
    (inputTitle v s).tasks = s.tasks ∧ (inputTitle v s).storage = s.storage ∧
    (inputTitle v s).editingId = s.editingId ∧ (inputTitle v s).handler = s.handler ∧
    (inputTitle v s).formTitle = v ∧
    (inputTitle v s).formDescription = s.formDescription ∧
    (inputTitle v s).buttonLabel = s.buttonLabel := by
  by_cases h1 : 0 < utf16Length (jsTrim v) <;>
    by_cases h2 : s.isTitleInputDirty <;>
      simp [inputTitle, runValidateTitle, h1, h2]

theorem blurTitle_frame (s : AppState) :
    (blurTitle s).tasks = s.tasks ∧ (blurTitle s).storage = s.storage ∧
    (blurTitle s).editingId = s.editingId ∧ (blurTitle s).handler = s.handler ∧
    (blurTitle s).formTitle = s.formTitle ∧
    (blurTitle s).formDescription = s.formDescription := by
  simp [blurTitle, runValidateTitle]

theorem focusTitle_frame (s : AppState) :
    (focusTitle s).tasks = s.tasks ∧ (focusTitle s).storage = s.storage ∧
    (focusTitle s).editingId = s.editingId ∧ (focusTitle s).handler = s.handler ∧
    (focusTitle s).formTitle = s.formTitle ∧
    (focusTitle s).formDescription = s.formDescription := by
  unfold focusTitle
  split_ifs <;> simp

/-! List-level helper lemmas about the task array. -/

theorem any_id_eq_false_iff (ts : List Task) (i : Nat) :
    ts.any (fun t => t.id == i) = false ↔ ∀ t ∈ ts, t.id ≠ i := by
  simp [List.any_eq_false]

theorem any_id_eq_true_of_mem (ts : List Task) (t : Task) (i : Nat)
    (ht : t ∈ ts) (hid : t.id = i) : ts.any (fun t => t.id == i) = true := by
  simp only [List.any_eq_true]
  exact ⟨t, ht, by simp [hid]⟩

theorem find?_id_eq_none (ts : List Task) (i : Nat)
    (h : ∀ t ∈ ts, t.id ≠ i) : ts.find? (fun t => t.id == i) = none := by
  apply List.find?_eq_none.mpr
  intro t ht
  simp [h t ht]

theorem find?_id_of_mem (ts : List Task) (t : Task) (i : Nat)
    (ht : t ∈ ts) (hid : t.id = i) :
    ∃ u, ts.find? (fun x => x.id == i) = some u ∧ u.id = i := by
  induction ts with
  | nil => cases ht
  | cons v ts ih =>
    by_cases hv : v.id = i
    · exact ⟨v, by simp [List.find?, hv], hv⟩
    · have ht' : t ∈ ts := by
        cases List.mem_cons.mp ht with
        | inl heq => exact absurd (heq ▸ hid) hv
        | inr h => exact h
      obtain ⟨u, hu, hui⟩ := ih ht'
      have hvb : (v.id == i) = false := by simp [hv]
      exact ⟨u, by simp [List.find?, hvb, hu], hui⟩

theorem setTitleDescFirst_of_absent (i : Nat) (nt nd : String) (ts : List Task)
    (h : ∀ t ∈ ts, t.id ≠ i) : setTitleDescFirst i nt nd ts = ts := by
  induction ts with
  | nil => rfl
  | cons t ts ih =>
    have hne : (t.id == i) = false := by simp [h t (by simp)]
    simp only [setTitleDescFirst, hne, Bool.false_eq_true, if_false, List.cons.injEq]
    exact ⟨trivial, ih (fun u hu => h u (by simp [hu]))⟩

theorem setTitleDescFirst_split (i : Nat) (nt nd : String) (l r : List Task) (t : Task)
    (hl : ∀ u ∈ l, u.id ≠ i) (hid : t.id = i) :
    setTitleDescFirst i nt nd (l ++ t :: r)
      = l ++ { t with title := nt, description := nd } :: r := by
  induction l with
  | nil => simp [setTitleDescFirst, hid]
  | cons u l ih =>
    have hne : (u.id == i) = false := by simp [hl u (by simp)]
    simp only [List.cons_append, setTitleDescFirst, hne, Bool.false_eq_true, if_false,
      List.cons.injEq]
    exact ⟨trivial, ih (fun v hv => hl v (by simp [hv]))⟩

theorem filter_ne_id_of_absent (i : Nat) (ts : List Task)
    (h : ∀ t ∈ ts, t.id ≠ i) : ts.filter (fun t => !(t.id == i)) = ts := by
  apply List.filter_eq_self.mpr
  intro t ht
  simp [h t ht]

theorem filter_ne_id_split (i : Nat) (l r : List Task) (t : Task)
    (hl : ∀ u ∈ l, u.id ≠ i) (hr : ∀ u ∈ r, u.id ≠ i) (hid : t.id = i) :
    (l ++ t :: r).filter (fun t => !(t.id == i)) = l ++ r := by
  rw [List.filter_append, filter_ne_id_of_absent i l hl]
  simp only [List.filter_cons, hid, beq_self_eq_true, Bool.not_true,
    Bool.false_eq_true, if_false]
  rw [filter_ne_id_of_absent i r hr]

theorem nodup_ids_split (l r : List Task) (t : Task)
    (h : ((l ++ t :: r).map Task.id).Nodup) :
    (∀ u ∈ l, u.id ≠ t.id) ∧ (∀ u ∈ r, u.id ≠ t.id) := by
  rw [List.map_append, List.map_cons, List.nodup_append] at h
  obtain ⟨h1, h2, h3⟩ := h
  constructor
  · intro u hu heq
    exact h3 (List.mem_map_of_mem Task.id hu) (by simp [heq])
  · intro u hu heq
    have hc := List.nodup_cons.mp h2
    exact hc.1 (by rw [← heq]; exact List.mem_map_of_mem Task.id hu)

/-! Preservation of storage synchronization: after any user action from a
state whose storage holds the serialization of the task array, the storage
again holds the serialization of the (possibly updated) task array. -/

theorem storageSync_applyOp (o : Op) (s : AppState) (h : StorageSync s) :
    StorageSync (applyOp o s) := by
  cases o with
  | inputTitle v =>
    have hf := inputTitle_frame v s
    simp only [StorageSync, applyOp] at *
    rw [hf.1, hf.2.1]
    exact h
  | inputDescription v =>
    simpa [StorageSync, applyOp, inputDescription] using h
  | blurTitle =>
    have hf := blurTitle_frame s
    simp only [StorageSync, applyOp] at *
    rw [hf.1, hf.2.1]
    exact h
  | focusTitle =>
    have hf := focusTitle_frame s
    simp only [StorageSync, applyOp] at *
    rw [hf.1, hf.2.1]
    exact h
  | submit now =>
    simp only [applyOp, submitForm]
    cases s.handler with
    | add =>
      cases hv : validateTitle s.formTitle with
      | false => simpa [StorageSync, addTask_invalid now s hv] using h
      | true => simp [StorageSync, addTask_valid now s hv]
    | update =>
      cases hv : validateTitle s.formTitle with
      | false => simpa [StorageSync, updateTask_invalid s hv] using h
      | true =>
        cases hid : s.editingId with
        | none => simpa [StorageSync, updateTask_noId s hv hid] using h
        | some i =>
          cases hfound : s.tasks.any (fun t => t.id == i) with
          | false => simpa [StorageSync, updateTask_missing s i hv hid hfound] using h
          | true => simp [StorageSync, updateTask_found s i hv hid hfound]
  | clickEdit i =>
    simp only [applyOp]
    cases hfind : s.tasks.find? (fun t => t.id == i) with
    | none => simpa [StorageSync, editTask_absent i s hfind] using h
    | some u => simpa [StorageSync, editTask_present i s u hfind] using h
  | clickDelete i confirmed =>
    cases confirmed with
    | false => simpa [StorageSync, applyOp, clickDelete] using h
    | true => simp [StorageSync, applyOp, clickDelete, deleteTask_eq]
  | clickToggle i =>
    simp only [applyOp]
    cases hfound : s.tasks.any (fun t => t.id == i) with
    | false => simpa [StorageSync, toggleCompleteTask_missing i s hfound] using h
    | true => simp [StorageSync, toggleCompleteTask_found i s hfound]

theorem storageSync_applyOps (ops : List Op) (s : AppState) (h : StorageSync s) :
    StorageSync (applyOps ops s) := by
  induction ops generalizing s with
  | nil => exact h
  | cons o ops ih => exact ih (applyOp o s) (storageSync_applyOp o s h)

/-! Claim theorems. -/

/-- C1: for every input string, validateTitle returns true exactly when
the length of the trimmed input is at least 5 and at most 50, and false
for every other input. -/
theorem claim_C1_validate_iff (t : String) :
    validateTitle t = true
      ↔ (5 ≤ utf16Length (jsTrim t) ∧ utf16Length (jsTrim t) ≤ 50) := by
  simp [validateTitle]

/-- C2 counterexample: creation takes its id from Date.now() without
checking the existing ids, so when the clock value equals an existing id
(two submissions in the same millisecond, or a loaded task whose id
matches) the new task's id equals an existing task's id: from one task
with id 1000 and a valid title, addTask at clock 1000 yields ids
[1000, 1000], violating the claimed freshness. -/
theorem claim_C2_counterexample :
    (addTask 1000 { baseState with
        tasks := [{ id := 1000, title := "first item", description := "",
                    completed := false }],
        formTitle := "hello" }).tasks.map Task.id = [1000, 1000] := by
  decide

/-- C2 (amended): with a title that passes validation, addTask appends
exactly one task at the end of the list, leaving the existing tasks and
their order unchanged, with completed false, the trimmed title and
description, and id equal to the Date.now() clock value; the ids remain
pairwise distinct provided the clock value is not already an existing id
(which the code does not guarantee). -/
theorem claim_C2_create_appends (now : Nat) (s : AppState)
    (h : validateTitle s.formTitle = true) :
    (addTask now s).tasks = s.tasks
      ++ [{ id := now, title := jsTrim s.formTitle,
            description := jsTrim s.formDescription, completed := false }] ∧
    ((s.tasks.map Task.id).Nodup → now ∉ s.tasks.map Task.id →
      ((addTask now s).tasks.map Task.id).Nodup) := by
  rw [addTask_valid now s h]
  refine ⟨rfl, ?_⟩
  intro hnd hni
  simp [List.nodup_append, hnd, hni]

/-- C2 witness: a concrete creation on a one-task store. -/
theorem claim_C2_create_appends_witness :
    validateTitle "hello" = true ∧
    ((addTask 7 { baseState with
        tasks := [taskA], formTitle := "hello", formDescription := " note " }).tasks
      = [taskA] ++ [{ id := 7, title := jsTrim "hello",
                      description := jsTrim " note ", completed := false }] ∧
    (([taskA].map Task.id).Nodup → 7 ∉ [taskA].map Task.id →
      (((addTask 7 { baseState with
          tasks := [taskA], formTitle := "hello",
          formDescription := " note " }).tasks.map Task.id)).Nodup)) :=
  ⟨by decide,
   claim_C2_create_appends 7
     { baseState with
       tasks := [taskA], formTitle := "hello", formDescription := " note " }
     (by decide)⟩

/-- C3: with a validated title and pairwise distinct ids, an update
submission whose editing id matches no task leaves the list unchanged,
and one whose editing id matches a task overwrites only that task's title
and description (with the trimmed form values), leaving its id and
completed flag, every other task, and the order unchanged. -/
theorem claim_C3_update_frame (s : AppState) (i : Nat)
    (hv : validateTitle s.formTitle = true) (hid : s.editingId = some i)
    (hnd : (s.tasks.map Task.id).Nodup) :
    ((∀ t ∈ s.tasks, t.id ≠ i) → (updateTask s).tasks = s.tasks) ∧
    (∀ l r t, s.tasks = l ++ t :: r → t.id = i →
      (updateTask s).tasks
        = l ++ { t with title := jsTrim s.formTitle,
                        description := jsTrim s.formDescription } :: r) := by
  constructor
  · intro habs
    have hany : s.tasks.any (fun t => t.id == i) = false :=
      (any_id_eq_false_iff s.tasks i).mpr habs
    rw [updateTask_missing s i hv hid hany]
  · intro l r t hsplit hti
    subst hti
    have htb : t ∈ s.tasks := by rw [hsplit]; simp
    have hfound : s.tasks.any (fun u => u.id == t.id) = true :=
      any_id_eq_true_of_mem s.tasks t t.id htb rfl
    rw [updateTask_found s t.id hv hid hfound]
    show setTitleDescFirst t.id (jsTrim s.formTitle) (jsTrim s.formDescription) s.tasks
      = l ++ { t with title := jsTrim s.formTitle,
                      description := jsTrim s.formDescription } :: r
    rw [hsplit]
    have hnd' : ((l ++ t :: r).map Task.id).Nodup := by rw [← hsplit]; exact hnd
    exact setTitleDescFirst_split t.id (jsTrim s.formTitle) (jsTrim s.formDescription)
      l r t (nodup_ids_split l r t hnd').1 rfl

/-- C3 witness: a concrete update of the second of two tasks, checking the
first task, the target's id and completed flag, and the order survive. -/
theorem claim_C3_update_frame_witness :
    validateTitle "new title!" = true ∧
    (updateTask { baseState with
        tasks := [taskA, taskB],
        formTitle := "new title!", formDescription := " new desc ",
        editingId := some 2, handler := SubmitHandler.update,
        buttonLabel := "Actualizar Tarea" }).tasks
      = [taskA] ++ { taskB with title := jsTrim "new title!",
                                description := jsTrim " new desc " } :: [] :=
  ⟨by decide,
   (claim_C3_update_frame
     { baseState with
       tasks := [taskA, taskB],
       formTitle := "new title!", formDescription := " new desc ",
       editingId := some 2, handler := SubmitHandler.update,
       buttonLabel := "Actualizar Tarea" } 2
     (by decide) (by decide) (by decide)).2 [taskA] [] taskB rfl (by decide)⟩

/-- C4: a submission (create or update, whichever handler is attached)
whose title fails validation leaves the task array and the persisted
storage exactly unchanged. -/
theorem claim_C4_invalid_rejected (now : Nat) (s : AppState)
    (h : validateTitle s.formTitle = false) :
    (submitForm now s).tasks = s.tasks ∧ (submitForm now s).storage = s.storage := by
  cases hh : s.handler with
  | add => rw [submitForm, hh, addTask_invalid now s h]; exact ⟨rfl, rfl⟩
  | update => rw [submitForm, hh, updateTask_invalid s h]; exact ⟨rfl, rfl⟩

/-- C4 witness: the spec's scenario, submitting title "Hi" (trimmed length
2) over a one-task store changes nothing. -/
theorem claim_C4_invalid_rejected_witness :
    validateTitle "Hi" = false ∧
    ((submitForm 9 { baseState with tasks := [taskA], formTitle := "Hi" }).tasks
        = [taskA] ∧
      (submitForm 9 { baseState with tasks := [taskA], formTitle := "Hi" }).storage
        = some "[]") :=
  ⟨by decide,
   claim_C4_invalid_rejected 9 { baseState with tasks := [taskA], formTitle := "Hi" }
     (by decide)⟩

/-- Auxiliary: editTask never changes the task array. -/
theorem editTask_tasks (i : Nat) (s : AppState) : (editTask i s).tasks = s.tasks := by
  cases hfind : s.tasks.find? (fun t => t.id == i) with
  | none => rw [editTask_absent i s hfind]
  | some u => rw [editTask_present i s u hfind]

/-- C5: from any state whose storage holds the serialization of the task
array (as every persisted state does), after any sequence of user actions
— creations, edits, updates, deletions, completion toggles, form input —
the persisted string parses back to exactly the current task list: same
ids, titles, descriptions, completed flags, same order. -/
theorem claim_C5_load_roundtrip (s : AppState) (ops : List Op) (h : StorageSync s) :
    ∃ str, (applyOps ops s).storage = some str
      ∧ parseTasks str = some (applyOps ops s).tasks := by
  have hs := storageSync_applyOps ops s h
  exact ⟨stringifyTasks (applyOps ops s).tasks, hs, parseTasks_stringify _⟩

/-- C5 witness: a concrete run that creates a task and toggles it. -/
theorem claim_C5_load_roundtrip_witness :
    StorageSync baseState ∧
    (∃ str, (applyOps [Op.inputTitle "hello", Op.submit 7, Op.clickToggle 7]
        baseState).storage = some str
      ∧ parseTasks str
        = some (applyOps [Op.inputTitle "hello", Op.submit 7, Op.clickToggle 7]
            baseState).tasks) :=
  ⟨by decide,
   claim_C5_load_roundtrip baseState
     [Op.inputTitle "hello", Op.submit 7, Op.clickToggle 7] (by decide)⟩

/-- C6 counterexample: submitting an update whose editing id (1) matches
no task leaves the list unchanged, but the controller does NOT return to
Idle: the form restoration block is inside the found-task guard, so the
editing id, the update handler, and the button label all survive — the
claimed transition back to Idle does not happen. -/
theorem claim_C6_counterexample :
    (updateTask editingEmptyState).tasks = editingEmptyState.tasks ∧
    (updateTask editingEmptyState).editingId = some 1 ∧
    (updateTask editingEmptyState).handler = SubmitHandler.update ∧
    (updateTask editingEmptyState).buttonLabel = "Actualizar Tarea" := by
  decide

/-- C6 (amended): when an update is submitted with a valid title and an
editing id that matches no task, the task list and storage are unchanged
(a silent no-op), but the controller stays in Editing(id): the editing
id, handler, button label, and form contents are all left as they were
(the form is stranded rather than restored to Idle). -/
theorem claim_C6_stale_edit (s : AppState) (i : Nat)
    (hv : validateTitle s.formTitle = true) (hid : s.editingId = some i)
    (habs : ∀ t ∈ s.tasks, t.id ≠ i) :
    (updateTask s).tasks = s.tasks ∧ (updateTask s).storage = s.storage ∧
    (updateTask s).editingId = some i ∧ (updateTask s).handler = s.handler ∧
    (updateTask s).buttonLabel = s.buttonLabel ∧
    (updateTask s).formTitle = s.formTitle ∧
    (updateTask s).formDescription = s.formDescription := by
  have hany : s.tasks.any (fun t => t.id == i) = false :=
    (any_id_eq_false_iff s.tasks i).mpr habs
  rw [updateTask_missing s i hv hid hany]
  exact ⟨rfl, rfl, hid, rfl, rfl, rfl, rfl⟩

/-- C6 witness: the amended behavior at the concrete stale-editing state. -/
theorem claim_C6_stale_edit_witness :
    validateTitle editingEmptyState.formTitle = true ∧
    editingEmptyState.editingId = some 1 ∧
    (updateTask editingEmptyState).tasks = editingEmptyState.tasks ∧
    (updateTask editingEmptyState).editingId = some 1 :=
  ⟨by decide, by decide,
   (claim_C6_stale_edit editingEmptyState 1 (by decide) (by decide) (by decide)).1,
   (claim_C6_stale_edit editingEmptyState 1 (by decide) (by decide) (by decide)).2.2.1⟩

/-- C7: beginning an edit on task A and then on task B before submitting
leaves the controller targeting B only (editing id B, update handler);
the subsequent valid submission rewrites exactly B's title and
description, and A's record survives unchanged in the list. -/
theorem claim_C7_retarget (s s2 : AppState) (a b : Nat) (ta tb : Task)
    (l r : List Task) (now : Nat) (newT newD : String)
    (hsplit : s.tasks = l ++ tb :: r) (htb : tb.id = b)
    (hta : ta ∈ l ++ r) (htaid : ta.id = a) (hab : a ≠ b)
    (hnd : (s.tasks.map Task.id).Nodup)
    (hvalid : validateTitle newT = true)
    (hs2 : s2 = inputTitle newT (inputDescription newD (editTask b (editTask a s)))) :
    s2.editingId = some b ∧ s2.handler = SubmitHandler.update ∧
    (submitForm now s2).tasks
      = l ++ { tb with title := jsTrim newT, description := jsTrim newD } :: r ∧
    ta ∈ (submitForm now s2).tasks := by
  have htbmem : tb ∈ s.tasks := by rw [hsplit]; simp
  have hAtasks : (editTask a s).tasks = s.tasks := editTask_tasks a s
  obtain ⟨v, hvfind, hvid⟩ :=
    find?_id_of_mem (editTask a s).tasks tb b (by rw [hAtasks]; exact htbmem) htb
  have hB := editTask_present b (editTask a s) v hvfind
  have hBtasks : (editTask b (editTask a s)).tasks = s.tasks := by
    rw [hB]
    exact hAtasks
  have hBedit : (editTask b (editTask a s)).editingId = some b := by rw [hB]
  have hBhandler : (editTask b (editTask a s)).handler = SubmitHandler.update := by
    rw [hB]
  have hf := inputTitle_frame newT (inputDescription newD (editTask b (editTask a s)))
  have h2tasks : s2.tasks = s.tasks := by
    rw [hs2, hf.1]
    simpa [inputDescription] using hBtasks
  have h2edit : s2.editingId = some b := by
    rw [hs2, hf.2.2.1]
    simpa [inputDescription] using hBedit
  have h2handler : s2.handler = SubmitHandler.update := by
    rw [hs2, hf.2.2.2.1]
    simpa [inputDescription] using hBhandler
  have h2title : s2.formTitle = newT := by
    rw [hs2]
    exact hf.2.2.2.2.1
  have h2desc : s2.formDescription = newD := by
    rw [hs2, hf.2.2.2.2.2.1]
    simp [inputDescription]
  have hsub : submitForm now s2 = updateTask s2 := by
    unfold submitForm
    rw [h2handler]
  have hv2 : validateTitle s2.formTitle = true := by rw [h2title]; exact hvalid
  have hfound2 : s2.tasks.any (fun t => t.id == b) = true := by
    rw [h2tasks]
    exact any_id_eq_true_of_mem s.tasks tb b htbmem htb
  have hres : (submitForm now s2).tasks
      = l ++ { tb with title := jsTrim newT, description := jsTrim newD } :: r := by
    rw [hsub, updateTask_found s2 b hv2 h2edit hfound2]
    show setTitleDescFirst b (jsTrim s2.formTitle) (jsTrim s2.formDescription) s2.tasks
      = l ++ { tb with title := jsTrim newT, description := jsTrim newD } :: r
    rw [h2title, h2desc, h2tasks, hsplit]
    have hnd' : ((l ++ tb :: r).map Task.id).Nodup := by rw [← hsplit]; exact hnd
    have hl := (nodup_ids_split l r tb hnd').1
    exact setTitleDescFirst_split b (jsTrim newT) (jsTrim newD) l r tb
      (fun u hu => htb ▸ hl u hu) htb
  refine ⟨h2edit, h2handler, hres, ?_⟩
  rw [hres]
  rcases List.mem_append.mp hta with hmem | hmem
  · exact List.mem_append_left _ hmem
  · exact List.mem_append_right _ (List.mem_cons_of_mem _ hmem)

/-- C7 witness: edit task A (id 1), then task B (id 2), type a new title
and description, submit: B is rewritten, A survives. -/
theorem claim_C7_retarget_witness :
    validateTitle "fresh title" = true ∧
    ((inputTitle "fresh title" (inputDescription " d "
        (editTask 2 (editTask 1 twoTaskState)))).editingId = some 2 ∧
     (inputTitle "fresh title" (inputDescription " d "
        (editTask 2 (editTask 1 twoTaskState)))).handler = SubmitHandler.update ∧
     (submitForm 9 (inputTitle "fresh title" (inputDescription " d "
        (editTask 2 (editTask 1 twoTaskState))))).tasks
       = [taskA] ++ { taskB with title := jsTrim "fresh title",
                                 description := jsTrim " d " } :: [] ∧
     taskA ∈ (submitForm 9 (inputTitle "fresh title" (inputDescription " d "
        (editTask 2 (editTask 1 twoTaskState))))).tasks) :=
  ⟨by decide,
   claim_C7_retarget twoTaskState
     (inputTitle "fresh title" (inputDescription " d "
       (editTask 2 (editTask 1 twoTaskState))))
     1 2 taskA taskB [taskA] [] 9 "fresh title" " d "
     rfl rfl (by decide) rfl (by decide) (by decide) (by decide) rfl⟩

/-- C8 counterexample: the empty string is a possible stored value that is
present and is not parsable JSON, yet loadTasks does not throw — the
truthiness check treats it like an absent value and leaves the list
empty. -/
theorem claim_C8_counterexample :
    parseTasks "" = none ∧ loadTasks (some "") [] = Except.ok [] :=
  ⟨rfl, rfl⟩

/-- C8 (amended): loadTasks leaves the list empty when no value is stored;
deserializes a stored non-empty string that parses; throws on a stored
non-empty string that does not parse; and — contrary to the claim as
stated — treats a stored empty string like an absent value (no error,
empty list), because the truthiness check is false on the empty string. -/
theorem claim_C8_load_behavior (stored : Option String) :
    (stored = none → loadTasks stored [] = Except.ok []) ∧
    (∀ str ts, stored = some str → str ≠ "" → parseTasks str = some ts →
      loadTasks stored [] = Except.ok ts) ∧
    (∀ str, stored = some str → str ≠ "" → parseTasks str = none →
      loadTasks stored [] = Except.error ()) ∧
    (stored = some "" → loadTasks stored [] = Except.ok []) := by
  refine ⟨?_, ?_, ?_, ?_⟩
  · rintro rfl
    rfl
  · rintro str ts rfl hne hp
    simp [loadTasks, hne, hp]
  · rintro str rfl hne hp
    simp [loadTasks, hne, hp]
  · rintro rfl
    rfl

/-- C8 witness: loading the serialization of a one-task list restores it,
and loading garbage throws. -/
theorem claim_C8_load_behavior_witness :
    parseTasks "garbage" = none ∧
    loadTasks (some "garbage") [] = Except.error () :=
  ⟨by decide,
   (claim_C8_load_behavior (some "garbage")).2.2.1 "garbage" rfl (by decide) (by decide)⟩

/-- C9: with pairwise distinct ids, deleteTask on an id removes exactly
the task with that id when present — all other tasks and their relative
order unchanged — and leaves the list unchanged when no task has the
id. -/
theorem claim_C9_delete (s : AppState) (i : Nat)
    (hnd : (s.tasks.map Task.id).Nodup) :
    ((∀ t ∈ s.tasks, t.id ≠ i) → (deleteTask i s).tasks = s.tasks) ∧
    (∀ l r t, s.tasks = l ++ t :: r → t.id = i → (deleteTask i s).tasks = l ++ r) := by
  constructor
  · intro habs
    rw [deleteTask_eq]
    exact filter_ne_id_of_absent i s.tasks habs
  · intro l r t hsplit hti
    subst hti
    rw [deleteTask_eq]
    show s.tasks.filter (fun u => !(u.id == t.id)) = l ++ r
    rw [hsplit]
    have hnd' : ((l ++ t :: r).map Task.id).Nodup := by rw [← hsplit]; exact hnd
    have hsp := nodup_ids_split l r t hnd'
    exact filter_ne_id_split t.id l r t hsp.1 hsp.2 rfl

/-- C9 witness: deleting the middle of three tasks keeps the outer two in
order. -/
theorem claim_C9_delete_witness :
    ((threeTaskState.tasks.map Task.id).Nodup) ∧
    (deleteTask 2 threeTaskState).tasks = [taskA] ++ [taskC] :=
  ⟨by decide,
   (claim_C9_delete threeTaskState 2 (by decide)).2 [taskA] [taskC] taskB rfl rfl⟩

/-- C10: beginning an edit with an id that matches no task is a complete
no-op: the whole state — task list, form fields, button label, disabled
flag, editing id, dirty flag, error label, and submit handler — is
exactly unchanged, because the entire body of editTask is guarded by the
find. -/
theorem claim_C10_edit_absent_noop (i : Nat) (s : AppState)
    (h : ∀ t ∈ s.tasks, t.id ≠ i) :
    editTask i s = s :=
  editTask_absent i s (find?_id_eq_none s.tasks i h)

/-- C10 witness: beginning an edit with id 5 over a store holding only
ids 1, 2, 3 changes nothing. -/
theorem claim_C10_edit_absent_noop_witness :
    (∀ t ∈ threeTaskState.tasks, t.id ≠ 5) ∧
    editTask 5 threeTaskState = threeTaskState :=
  ⟨by decide, claim_C10_edit_absent_noop 5 threeTaskState (by decide)⟩

end TodoList
